import Mathlib

/-!
Shallow embedding of the tinvest backend (Express + MySQL stock-watchlist app).

Embedded source files:
* `src/backend/src/routes/watchlist.ts` — JWT middleware `authenticateToken`
  and the four watchlist routes (list / add / toggle-favorite / remove);
* `src/unnamed/part_000` (routes/auth-db.ts) — `register` and `login`;
* `src/backend/src/routes/google-auth-db.ts` — Google OAuth login.

Modelling conventions:
* MySQL tables are Lean lists of row structures; `INSERT` appends,
  autoincrement ids come from an explicit counter.  `pool.query` calls are
  recorded in a query log (a `List String` of the SQL text) so that
  "no database query was executed" is expressible.
* `mysql2` connects with the `FOUND_ROWS` client flag (its default), so
  `affectedRows` of an `UPDATE` counts *matched* rows; we model it as the
  number of rows matching the `WHERE` clause.
* `bcrypt` is modelled as an ideal (collision-free) salted hash: the hash
  string is an injective encoding of (salt, password) and `compare`
  decodes it.
* JSON web tokens are modelled as an injective string encoding of the
  payload (claims, expiry) together with the signing secret; `jwt.verify`
  decodes and checks the embedded secret and the expiry.  The token
  alphabet is {a, b, c}, in particular space-free, as real JWTs are.
* JavaScript `String.prototype.split(sep)` is modelled by `jsSplit` on the
  underlying character list (split at every occurrence, keeping empties).
* JavaScript truthiness of the strings / nullable strings the code tests
  with `!x` is modelled explicitly (`null`/`undefined`/`""` are falsy).
-/

namespace Tinvest

/-- Model of JavaScript `String.prototype.split` with a one-character
separator: split at every occurrence of `sep`, keeping empty fragments.
The result is always nonempty. -/
def jsSplit (sep : Char) : List Char → List (List Char)
  | [] => [[]]
  | c :: rest =>
    match jsSplit sep rest with
    | [] => [[]]
    | g :: gs => if c = sep then [] :: g :: gs else (c :: g) :: gs

theorem jsSplit_ne_nil (sep : Char) (l : List Char) : jsSplit sep l ≠ [] := by
  induction l with
  | nil => simp [jsSplit]
  | cons c rest ih =>
    simp only [jsSplit]
    cases h : jsSplit sep rest with
    | nil => simp
    | cons g gs =>
      by_cases hc : c = sep <;> simp [hc]

theorem jsSplit_sep_cons (sep : Char) (l : List Char) :
    jsSplit sep (sep :: l) = [] :: jsSplit sep l := by
  simp only [jsSplit]
  cases h : jsSplit sep l with
  | nil => exact absurd h (jsSplit_ne_nil sep l)
  | cons g gs => simp

theorem jsSplit_no_sep {sep : Char} {l : List Char} (h : sep ∉ l) :
    jsSplit sep l = [l] := by
  induction l with
  | nil => rfl
  | cons c rest ih =>
    simp only [List.mem_cons, not_or] at h
    simp only [jsSplit, ih h.2]
    have : ¬ c = sep := fun hc => h.1 hc.symm
    simp [this]

theorem jsSplit_append {sep : Char} {xs : List Char} (ys : List Char)
    (h : sep ∉ xs) :
    jsSplit sep (xs ++ sep :: ys) = xs :: jsSplit sep ys := by
  induction xs with
  | nil =>
    simp only [List.nil_append, jsSplit]
    cases hy : jsSplit sep ys with
    | nil => exact absurd hy (jsSplit_ne_nil sep ys)
    | cons g gs => simp
  | cons c rest ih =>
    simp only [List.mem_cons, not_or] at h
    have hne : ¬ c = sep := fun hc => h.1 hc.symm
    show jsSplit sep (c :: (rest ++ sep :: ys)) = (c :: rest) :: jsSplit sep ys
    simp only [jsSplit]
    rw [ih h.2]
    simp [hne]

/-! ### Injective string codec used to model JWT payloads and bcrypt hashes -/

/-- Little-endian binary digits (structural recursion on a fuel argument so
that the kernel can evaluate it; `fuel ≥ n` suffices). -/
def encNatAux : Nat → Nat → List Char
  | _, 0 => []
  | 0, _ + 1 => []
  | fuel + 1, n + 1 =>
    (if (n + 1) % 2 = 1 then 'b' else 'a') :: encNatAux fuel ((n + 1) / 2)

/-- Binary encoding of a natural number over the alphabet {a, b}
(`'a'` = bit 0, `'b'` = bit 1), with no trailing zero bits. -/
def encNat (n : Nat) : List Char := encNatAux n n

/-- Decoding matching `encNat`. -/
def decNat : List Char → Nat
  | [] => 0
  | c :: rest => (if c = 'b' then 1 else 0) + 2 * decNat rest

theorem decNat_encNatAux {fuel : Nat} : ∀ {n : Nat}, n ≤ fuel →
    decNat (encNatAux fuel n) = n := by
  induction fuel with
  | zero =>
    intro n h
    interval_cases n
    rfl
  | succ f ih =>
    intro n h
    match n with
    | 0 => rfl
    | m + 1 =>
      have hdiv : (m + 1) / 2 ≤ f := by omega
      rcases Nat.mod_two_eq_zero_or_one (m + 1) with h2 | h2 <;>
        simp [encNatAux, decNat, h2, ih hdiv] <;> omega

theorem decNat_encNat (n : Nat) : decNat (encNat n) = n :=
  decNat_encNatAux (Nat.le_refl n)

theorem encNatAux_mem {fuel : Nat} : ∀ {n : Nat} {x : Char},
    x ∈ encNatAux fuel n → x = 'a' ∨ x = 'b' := by
  induction fuel with
  | zero =>
    intro n x h
    match n with
    | 0 => simp [encNatAux] at h
    | _ + 1 => simp [encNatAux] at h
  | succ f ih =>
    intro n x h
    match n with
    | 0 => simp [encNatAux] at h
    | m + 1 =>
      simp only [encNatAux, List.mem_cons] at h
      rcases h with h | h
      · split at h
        · exact Or.inr h
        · exact Or.inl h
      · exact ih h

theorem encNat_mem {n : Nat} {x : Char} (h : x ∈ encNat n) :
    x = 'a' ∨ x = 'b' :=
  encNatAux_mem h

/-- Encoding of a character list (alphabet {a, b, c}): each character
becomes `'c'` followed by its code point in binary. -/
def encStrL : List Char → List Char
  | [] => []
  | c :: cs => 'c' :: (encNat c.toNat ++ encStrL cs)

/-- Decoding matching `encStrL`. -/
def decStrL (l : List Char) : List Char :=
  ((jsSplit 'c' l).tail).map (fun g => Char.ofNat (decNat g))

theorem encNat_no_c {n : Nat} : 'c' ∉ encNat n := by
  intro hm
  rcases encNat_mem hm with h | h <;> exact absurd h (by decide)

theorem encStrL_mem {cs : List Char} {x : Char} (h : x ∈ encStrL cs) :
    x = 'a' ∨ x = 'b' ∨ x = 'c' := by
  induction cs with
  | nil => simp [encStrL] at h
  | cons c rest ih =>
    simp only [encStrL, List.mem_cons, List.mem_append] at h
    rcases h with h | h | h
    · exact Or.inr (Or.inr h)
    · rcases encNat_mem h with h | h
      · exact Or.inl h
      · exact Or.inr (Or.inl h)
    · exact ih h

theorem jsSplit_encStrL (cs : List Char) :
    jsSplit 'c' (encStrL cs) = [] :: cs.map (fun c => encNat c.toNat) := by
  induction cs with
  | nil => rfl
  | cons c rest ih =>
    simp only [encStrL, List.map_cons] at ih ⊢
    rw [jsSplit_sep_cons]
    cases rest with
    | nil =>
      rw [show encStrL [] = [] from rfl, List.append_nil,
          jsSplit_no_sep encNat_no_c]
      rfl
    | cons c2 cs2 =>
      have hT : jsSplit 'c' (encNat c2.toNat ++ encStrL cs2) =
          encNat c2.toNat :: List.map (fun c => encNat c.toNat) cs2 := by
        rw [show encStrL (c2 :: cs2) = 'c' :: (encNat c2.toNat ++ encStrL cs2) from rfl,
            jsSplit_sep_cons] at ih
        exact (List.cons.inj ih).2
      rw [show encStrL (c2 :: cs2) = 'c' :: (encNat c2.toNat ++ encStrL cs2) from rfl,
          jsSplit_append _ encNat_no_c, hT, List.map_cons]

theorem decStrL_encStrL (cs : List Char) : decStrL (encStrL cs) = cs := by
  rw [decStrL, jsSplit_encStrL, List.tail_cons, List.map_map]
  have hcomp : ((fun g : List Char => Char.ofNat (decNat g)) ∘
      fun c : Char => encNat c.toNat) = id := by
    funext c
    simp [Function.comp, decNat_encNat]
  rw [hcomp, List.map_id]

/-! ### JSON web tokens

`jwt.sign(payload, secret, { expiresIn: '7d' })` is modelled as an injective
encoding of the payload plus expiry, tagged with the signing secret (ideal
signature).  `jwt.verify(token, secret, cb)` decodes and checks the embedded
secret and the expiry; any failure is the `err` branch of the callback.

The routes sign two payload shapes: `{ userId, email }` (register, login)
and `{ userId, email, googleId }` (Google login).  `googleId : Option
(Option String)` records whether the `googleId` key is present at all
(`none` = absent) and, when present, its possibly-null value. -/

structure Claims where
  userId : Nat
  email : String
  googleId : Option (Option String)
deriving DecidableEq, Repr

structure TokenPayload where
  claims : Claims
  exp : Nat
  secret : String
deriving DecidableEq, Repr

/-- Field encoding of the optional `googleId` claim (alphabet {a, b, c}). -/
def encGid : Option (Option String) → List Char
  | none => []
  | some none => ['b']
  | some (some s) => 'a' :: encStrL s.data

def decGid : List Char → Option (Option String)
  | [] => none
  | 'a' :: rest => some (some (String.mk (decStrL rest)))
  | _ :: _ => some none

theorem decGid_encGid (g : Option (Option String)) : decGid (encGid g) = g := by
  match g with
  | none => rfl
  | some none => rfl
  | some (some s) =>
    show decGid ('a' :: encStrL s.data) = some (some s)
    simp [decGid, decStrL_encStrL]

/-- Token wire format: the five fields (user id, email, googleId claim,
expiry, signing secret) encoded over {a, b, c} and separated by `'d'`. -/
def encTok (t : TokenPayload) : List Char :=
  encNat t.claims.userId ++ 'd' :: (encStrL t.claims.email.data ++
    'd' :: (encGid t.claims.googleId ++
      'd' :: (encNat t.exp ++ 'd' :: encStrL t.secret.data)))

def decTok (l : List Char) : Option TokenPayload :=
  match jsSplit 'd' l with
  | [f1, f2, f3, f4, f5] =>
    some { claims := { userId := decNat f1,
                       email := String.mk (decStrL f2),
                       googleId := decGid f3 },
           exp := decNat f4,
           secret := String.mk (decStrL f5) }
  | _ => none

theorem encNat_no_d {n : Nat} : 'd' ∉ encNat n := by
  intro hm
  rcases encNat_mem hm with h | h <;> exact absurd h (by decide)

theorem encStrL_no_d {cs : List Char} : 'd' ∉ encStrL cs := by
  intro hm
  rcases encStrL_mem hm with h | h | h <;> exact absurd h (by decide)

theorem encGid_no_d {g : Option (Option String)} : 'd' ∉ encGid g := by
  match g with
  | none => simp [encGid]
  | some none => simp [encGid]
  | some (some s) =>
    intro hm
    rcases List.mem_cons.mp hm with h | h
    · exact absurd h (by decide)
    · exact encStrL_no_d h

/-- The token codec round-trips: verification recovers exactly the signed
payload. -/
theorem decTok_encTok (t : TokenPayload) : decTok (encTok t) = some t := by
  have h5 : jsSplit 'd' (encStrL t.secret.data) = [encStrL t.secret.data] :=
    jsSplit_no_sep encStrL_no_d
  rw [decTok, encTok,
      jsSplit_append _ encNat_no_d,
      jsSplit_append _ encStrL_no_d,
      jsSplit_append _ encGid_no_d,
      jsSplit_append _ encNat_no_d,
      h5]
  simp [decNat_encNat, decStrL_encStrL, decGid_encGid]

theorem encTok_mem {t : TokenPayload} {x : Char} (h : x ∈ encTok t) :
    x = 'a' ∨ x = 'b' ∨ x = 'c' ∨ x = 'd' := by
  simp only [encTok, List.mem_append, List.mem_cons] at h
  rcases h with h | h | h | h | h | h | h | h | h
  · rcases encNat_mem h with h | h
    · exact Or.inl h
    · exact Or.inr (Or.inl h)
  · exact Or.inr (Or.inr (Or.inr h))
  · rcases encStrL_mem h with h | h | h
    · exact Or.inl h
    · exact Or.inr (Or.inl h)
    · exact Or.inr (Or.inr (Or.inl h))
  · exact Or.inr (Or.inr (Or.inr h))
  · rcases g : t.claims.googleId with _ | _ | s
    all_goals rw [g] at h
    · simp [encGid] at h
    · rcases List.mem_singleton.mp (by simpa [encGid] using h) with h
      exact Or.inr (Or.inl h)
    · rcases List.mem_cons.mp (by simpa [encGid] using h) with h | h
      · exact Or.inl h
      · rcases encStrL_mem h with h | h | h
        · exact Or.inl h
        · exact Or.inr (Or.inl h)
        · exact Or.inr (Or.inr (Or.inl h))
  · exact Or.inr (Or.inr (Or.inr h))
  · rcases encNat_mem h with h | h
    · exact Or.inl h
    · exact Or.inr (Or.inl h)
  · exact Or.inr (Or.inr (Or.inr h))
  · rcases encStrL_mem h with h | h | h
    · exact Or.inl h
    · exact Or.inr (Or.inl h)
    · exact Or.inr (Or.inr (Or.inl h))

theorem encTok_no_space {t : TokenPayload} : ' ' ∉ encTok t := by
  intro hm
  rcases encTok_mem hm with h | h | h | h <;> exact absurd h (by decide)

theorem encTok_ne_nil (t : TokenPayload) : encTok t ≠ [] := by
  simp only [encTok]
  cases h : encNat t.claims.userId <;> simp

/-- Seconds in the `'7d'` token lifetime used by every `jwt.sign` call. -/
def sevenDays : Nat := 7 * 24 * 60 * 60

/-- `jwt.sign(claims, secret, { expiresIn: '7d' })` at time `now`
(seconds). -/
def jwtSign (c : Claims) (secret : String) (now : Nat) : List Char :=
  encTok { claims := c, exp := now + sevenDays, secret := secret }

/-- `jwt.verify(token, secret, cb)`: `none` is the error branch (malformed
token, wrong signature, or expiry in the past). -/
def jwtVerifyTok (secret : String) (now : Nat) (tok : List Char) :
    Option Claims :=
  match decTok tok with
  | none => none
  | some t => if t.secret = secret ∧ now < t.exp then some t.claims else none

theorem jwtVerify_jwtSign {secret : String} {now now2 : Nat} (c : Claims)
    (h : now2 < now + sevenDays) :
    jwtVerifyTok secret now2 (jwtSign c secret now) = some c := by
  simp [jwtVerifyTok, jwtSign, decTok_encTok, h]

/-! ### `authenticateToken` middleware (watchlist.ts lines 18–35) -/

/-- `const token = authHeader && authHeader.split(' ')[1]` followed by the
`if (!token)` truthiness test: `none` means the middleware answers 401.
An absent header, a header with no second space-separated word, and an
empty second word are all falsy in JavaScript. -/
def extractToken (authHeader : Option String) : Option (List Char) :=
  match authHeader with
  | none => none
  | some h =>
    match (jsSplit ' ' h.data)[1]? with
    | none => none
    | some t => if t = [] then none else some t

structure ErrResp where
  status : Nat
  message : String
deriving DecidableEq, Repr

instance {γ δ : Type} [DecidableEq γ] [DecidableEq δ] :
    DecidableEq (Except γ δ) := fun x y =>
  match x, y with
  | .error a, .error b =>
    if h : a = b then .isTrue (by rw [h]) else
      .isFalse (fun hh => h (by cases hh; rfl))
  | .ok a, .ok b =>
    if h : a = b then .isTrue (by rw [h]) else
      .isFalse (fun hh => h (by cases hh; rfl))
  | .error _, .ok _ => .isFalse (fun hh => by cases hh)
  | .ok _, .error _ => .isFalse (fun hh => by cases hh)

/-- The middleware: 401 when no token could be extracted from the
`Authorization` header, 403 when `jwt.verify` fails, otherwise the verified
claims become `req.user`. -/
def authenticateToken (secret : String) (now : Nat)
    (authHeader : Option String) : Except ErrResp Claims :=
  match extractToken authHeader with
  | none => .error ⟨401, "Access token required"⟩
  | some tok =>
    match jwtVerifyTok secret now tok with
    | none => .error ⟨403, "Invalid or expired token"⟩
    | some u => .ok u

/-- Extraction takes the second space-separated word of the header whatever
the first word is: the scheme is never inspected. -/
theorem extractToken_scheme (scheme : String) (tok : List Char)
    (hs : ' ' ∉ scheme.data) (ht : ' ' ∉ tok) (hne : tok ≠ []) :
    extractToken (some (scheme ++ " " ++ String.mk tok)) = some tok := by
  have hdata : (scheme ++ " " ++ String.mk tok).data =
      scheme.data ++ ' ' :: tok := by
    simp [String.data_append]
  rw [extractToken, hdata, jsSplit_append _ hs, jsSplit_no_sep ht]
  simp [hne]

theorem authenticateToken_bearer_sign {secret : String} {now now2 : Nat}
    (c : Claims) (h : now2 < now + sevenDays) :
    authenticateToken secret now2
      (some ("Bearer " ++ String.mk (jwtSign c secret now))) = .ok c := by
  have hx : extractToken (some ("Bearer " ++ String.mk (jwtSign c secret now)))
      = some (jwtSign c secret now) :=
    extractToken_scheme "Bearer" _ (by decide) encTok_no_space (encTok_ne_nil _)
  simp only [authenticateToken, hx, jwtVerify_jwtSign c h]

/-! ### Database model -/

/-- Row of the `users` table (auth-db.ts / google-auth-db.ts `User`). -/
structure UserRow where
  id : Nat
  email : String
  password : Option String
  google_id : Option String
  name : Option String
  picture : Option String
  created_at : Nat
deriving DecidableEq, Repr

/-- Row of the `watchlist` table (watchlist.ts `WatchlistItem`). -/
structure WatchlistRow where
  id : Nat
  user_id : Nat
  symbol : String
  name : String
  is_favorite : Bool
  added_at : Nat
deriving DecidableEq, Repr

/-- The MySQL database: both tables plus their autoincrement counters. -/
structure DB where
  users : List UserRow
  nextUserId : Nat
  watchlist : List WatchlistRow
  nextWatchlistId : Nat
deriving DecidableEq, Repr

/-- JavaScript truthiness test `!x` on a nullable string: `null`/`undefined`
and `""` are falsy. -/
def jsFalsyStr : Option String → Bool
  | none => true
  | some s => s == ""

/-- JavaScript `x || null` on a nullable string. -/
def jsOrNull (x : Option String) : Option String :=
  if jsFalsyStr x then none else x

/-! ### bcrypt (ideal salted hash) -/

/-- `bcrypt.hash(p, salt)`: an injective encoding of (salt, password),
modelling a collision-free salted hash. -/
def bcryptHash (salt : Nat) (p : String) : String :=
  String.mk ('h' :: (encNat salt ++ 'd' :: encStrL p.data))

/-- `bcrypt.compare(p, h)`: decode the stored hash and compare passwords. -/
def bcryptCompare (p h : String) : Bool :=
  match h.data with
  | 'h' :: rest =>
    match jsSplit 'd' rest with
    | [_, f2] => decStrL f2 == p.data
    | _ => false
  | _ => false

theorem bcryptCompare_hash (salt : Nat) (p q : String) :
    bcryptCompare q (bcryptHash salt p) = (p == q) := by
  rw [bcryptCompare, bcryptHash]
  simp only
  rw [jsSplit_append _ encNat_no_d, jsSplit_no_sep encStrL_no_d]
  simp only [decStrL_encStrL]
  cases hpq : p == q with
  | true =>
    have : p = q := by simpa using hpq
    subst this
    simp
  | false =>
    have : ¬ p = q := by simpa using hpq
    have hd : ¬ p.data = q.data := fun hh => this (by
      cases p
      cases q
      exact congrArg String.mk hh)
    simp [hd]

/-! ### Auth routes (auth-db.ts)

`express-validator` runs `body('email').isEmail().normalizeEmail()` before
the handler; the check itself is third-party code, so the handlers take the
validator as a function argument `isEmail` and receive the already
normalized email.  `body('password').isLength({ min: 6 })` is modelled
directly. -/

structure UserView where
  id : Nat
  email : String
  name : Option String
deriving DecidableEq, Repr

/-- Response of the three auth endpoints: HTTP status, `message`, and the
`token` / `user` fields present on success. -/
structure AuthResp where
  status : Nat
  message : String
  token : Option (List Char)
  userView : Option UserView
deriving DecidableEq, Repr

/-- `POST /api/auth/register` (auth-db.ts lines 21–87).  `salt` models the
random salt from `bcrypt.genSalt(10)`; `now` is the clock (seconds).  The
insert stores `name || null`, so an absent or empty name is stored as
NULL. -/
def register (isEmail : String → Bool) (secret : String) (db : DB)
    (now salt : Nat) (email password : String) (name : Option String) :
    AuthResp × DB :=
  if ¬ (isEmail email && decide (6 ≤ password.length)) then
    (⟨400, "validation errors", none, none⟩, db)
  else
    let existingUsers := db.users.filter (fun u => u.email == email)
    if existingUsers.length > 0 then
      (⟨400, "User already exists with this email", none, none⟩, db)
    else
      let hashedPassword := bcryptHash salt password
      let row : UserRow :=
        ⟨db.nextUserId, email, some hashedPassword, none, jsOrNull name,
          none, now⟩
      let db' : DB := { db with users := db.users ++ [row],
                                nextUserId := db.nextUserId + 1 }
      match (db'.users.filter (fun u => u.id == db.nextUserId)).head? with
      | none => (⟨500, "Server error", none, none⟩, db')
      | some newUser =>
        let token := jwtSign ⟨newUser.id, newUser.email, none⟩ secret now
        (⟨201, "User created successfully", some token,
          some ⟨newUser.id, newUser.email, newUser.name⟩⟩, db')

/-- `POST /api/auth/login` (auth-db.ts lines 90–153).  Read-only: the
database is not changed. -/
def login (isEmail : String → Bool) (secret : String) (db : DB) (now : Nat)
    (email password : String) : AuthResp :=
  if ¬ isEmail email then
    ⟨400, "validation errors", none, none⟩
  else
    match (db.users.filter (fun u => u.email == email)).head? with
    | none => ⟨401, "Invalid credentials", none, none⟩
    | some user =>
      if jsFalsyStr user.password then
        ⟨401, "Please sign in with Google", none, none⟩
      else
        if bcryptCompare password (user.password.getD "") then
          ⟨200, "Login successful",
            some (jwtSign ⟨user.id, user.email, none⟩ secret now),
            some ⟨user.id, user.email, user.name⟩⟩
        else
          ⟨401, "Invalid credentials", none, none⟩

/-! ### Google OAuth route (google-auth-db.ts)

`client.verifyIdToken` and `ticket.getPayload()` are third-party calls; the
route takes the verifier as a function argument `verifyG`.  `.error` models
a thrown verification error (caught by the route's `catch` → 500), `.ok
none` models `getPayload()` returning `undefined`, and `.ok (some p)` a
verified payload. -/

structure GooglePayload where
  sub : String
  email : Option String
  name : Option String
  picture : Option String
deriving DecidableEq, Repr

structure GoogleView where
  id : Nat
  email : String
  name : Option String
  picture : Option String
deriving DecidableEq, Repr

structure GoogleResp where
  status : Nat
  message : String
  token : Option (List Char)
  userView : Option GoogleView
deriving DecidableEq, Repr

/-- `POST /api/auth/google` (google-auth-db.ts lines 21–108). -/
def googleLogin (verifyG : String → Except Unit (Option GooglePayload))
    (secret : String) (db : DB) (now : Nat) (credential : Option String) :
    GoogleResp × DB :=
  if jsFalsyStr credential then
    (⟨400, "No credential provided", none, none⟩, db)
  else
    match verifyG (credential.getD "") with
    | .error _ => (⟨500, "Server error", none, none⟩, db)
    | .ok none => (⟨400, "Invalid token", none, none⟩, db)
    | .ok (some p) =>
      if jsFalsyStr p.email then
        (⟨400, "Email not provided by Google", none, none⟩, db)
      else
        let e := p.email.getD ""
        let googleId := p.sub
        let rows := db.users.filter
          (fun u => u.google_id == some googleId || u.email == e)
        match rows.head? with
        | none =>
          let row : UserRow :=
            ⟨db.nextUserId, e, none, some googleId, p.name, p.picture, now⟩
          let db' : DB := { db with users := db.users ++ [row],
                                    nextUserId := db.nextUserId + 1 }
          match (db'.users.filter (fun u => u.id == db.nextUserId)).head? with
          | none => (⟨500, "Server error", none, none⟩, db')
          | some user =>
            (⟨200, "Google login successful",
              some (jwtSign ⟨user.id, user.email, some user.google_id⟩
                      secret now),
              some ⟨user.id, user.email, user.name, user.picture⟩⟩, db')
        | some u0 =>
          if jsFalsyStr u0.google_id then
            -- account linking: UPDATE google_id, name, picture WHERE id
            let db' : DB := { db with users := db.users.map (fun w =>
              if w.id == u0.id then
                { w with google_id := some googleId,
                         name := p.name, picture := p.picture }
              else w) }
            -- the in-memory `user` object is mutated with `name || null`
            let user : UserRow :=
              { u0 with google_id := some googleId,
                        name := jsOrNull p.name,
                        picture := jsOrNull p.picture }
            (⟨200, "Google login successful",
              some (jwtSign ⟨user.id, user.email, some user.google_id⟩
                      secret now),
              some ⟨user.id, user.email, user.name, user.picture⟩⟩, db')
          else
            (⟨200, "Google login successful",
              some (jwtSign ⟨u0.id, u0.email, some u0.google_id⟩ secret now),
              some ⟨u0.id, u0.email, u0.name, u0.picture⟩⟩, db)

/-! ### Watchlist routes (watchlist.ts)

Each core handler is the route body after the middleware has set
`req.user`; `uid` is `req.user.userId`.  The third component is the log of
SQL statements sent to the pool by that request. -/

def sqlSelectWatchlist : String :=
  "SELECT * FROM watchlist WHERE user_id = ? ORDER BY is_favorite DESC, added_at DESC"

def sqlSelectWatchlistItem : String :=
  "SELECT * FROM watchlist WHERE user_id = ? AND symbol = ?"

def sqlInsertWatchlist : String :=
  "INSERT INTO watchlist (user_id, symbol, name, is_favorite) VALUES (?, ?, ?, FALSE)"

def sqlUpdateFavorite : String :=
  "UPDATE watchlist SET is_favorite = ? WHERE user_id = ? AND symbol = ?"

def sqlDeleteWatchlist : String :=
  "DELETE FROM watchlist WHERE user_id = ? AND symbol = ?"

def favNat (b : Bool) : Nat := if b then 1 else 0

/-- `ORDER BY is_favorite DESC, added_at DESC` as a total preorder:
`wlR a b` holds when `a` may be listed no later than `b`. -/
def wlR (a b : WatchlistRow) : Prop :=
  favNat b.is_favorite < favNat a.is_favorite ∨
    (favNat a.is_favorite = favNat b.is_favorite ∧ b.added_at ≤ a.added_at)

instance : DecidableRel wlR := fun a b =>
  inferInstanceAs (Decidable (favNat b.is_favorite < favNat a.is_favorite ∨
    (favNat a.is_favorite = favNat b.is_favorite ∧ b.added_at ≤ a.added_at)))

instance : IsTotal WatchlistRow wlR :=
  ⟨fun a b => by unfold wlR; omega⟩

instance : IsTrans WatchlistRow wlR :=
  ⟨fun a b c => by unfold wlR; omega⟩

/-- `SELECT * FROM watchlist WHERE user_id = ? ORDER BY ...`. -/
def listQuery (db : DB) (uid : Nat) : List WatchlistRow :=
  List.insertionSort wlR (db.watchlist.filter (fun r => r.user_id == uid))

structure ListItem where
  symbol : String
  name : String
  isFavorite : Bool
  addedAt : Nat
deriving DecidableEq, Repr

/-- The projection `rows.map(item => ({symbol, name, isFavorite, addedAt}))`
of the list route. -/
def wlProj (r : WatchlistRow) : ListItem :=
  ⟨r.symbol, r.name, r.is_favorite, r.added_at⟩

structure WlResp where
  status : Nat
  message : Option String
  watchlist : Option (List ListItem)
deriving DecidableEq, Repr

/-- `GET /api/watchlist` body (watchlist.ts lines 38–59). -/
def listCore (db : DB) (uid : Nat) : WlResp × DB × List String :=
  (⟨200, none, some ((listQuery db uid).map wlProj)⟩, db,
   [sqlSelectWatchlist])

/-- `POST /api/watchlist/add` body (watchlist.ts lines 62–94). -/
def addCore (db : DB) (now uid : Nat) (symbol name : Option String) :
    WlResp × DB × List String :=
  if jsFalsyStr symbol || jsFalsyStr name then
    (⟨400, some "Symbol and name are required", none⟩, db, [])
  else
    let s := symbol.getD ""
    let n := name.getD ""
    let existing := db.watchlist.filter
      (fun r => r.user_id == uid && r.symbol == s)
    if existing.length > 0 then
      (⟨400, some "Stock already in watchlist", none⟩, db,
       [sqlSelectWatchlistItem])
    else
      let row : WatchlistRow := ⟨db.nextWatchlistId, uid, s, n, false, now⟩
      (⟨201, some "Stock added to watchlist", none⟩,
       { db with watchlist := db.watchlist ++ [row],
                 nextWatchlistId := db.nextWatchlistId + 1 },
       [sqlSelectWatchlistItem, sqlInsertWatchlist])

/-- A JSON body value, as far as `typeof isFavorite !== 'boolean'` can
distinguish it. -/
inductive BodyVal where
  | vBool (b : Bool)
  | vStr (s : String)
  | vNum (n : Int)
  | vNull
  | vUndefined
deriving DecidableEq, Repr

/-- `PUT /api/watchlist/favorite/:symbol` body (watchlist.ts lines 97–123).
`affectedRows` counts the rows matched by the `UPDATE`'s `WHERE` clause
(mysql2 connects with the default `FOUND_ROWS` client flag). -/
def toggleCore (db : DB) (uid : Nat) (symbol : String)
    (isFavorite : BodyVal) : WlResp × DB × List String :=
  match isFavorite with
  | .vBool b =>
    let affected := (db.watchlist.filter
      (fun r => r.user_id == uid && r.symbol == symbol)).length
    let db' : DB := { db with watchlist := db.watchlist.map (fun r =>
      if r.user_id == uid && r.symbol == symbol then
        { r with is_favorite := b }
      else r) }
    if affected = 0 then
      (⟨404, some "Stock not found in watchlist", none⟩, db',
       [sqlUpdateFavorite])
    else
      (⟨200, some (if b then "Stock favorited successfully"
                   else "Stock unfavorited successfully"), none⟩, db',
       [sqlUpdateFavorite])
  | _ => (⟨400, some "isFavorite must be a boolean", none⟩, db, [])

/-- `DELETE /api/watchlist/remove/:symbol` body (watchlist.ts lines
126–141). -/
def removeCore (db : DB) (uid : Nat) (symbol : String) :
    WlResp × DB × List String :=
  let remaining := db.watchlist.filter
    (fun r => ! (r.user_id == uid && r.symbol == symbol))
  (⟨200, some "Stock removed from watchlist", none⟩,
   { db with watchlist := remaining },
   [sqlDeleteWatchlist])

def wlAuthFail (e : ErrResp) : WlResp := ⟨e.status, some e.message, none⟩

/-- `GET /api/watchlist` with the `authenticateToken` middleware. -/
def handleList (secret : String) (now : Nat) (authHeader : Option String)
    (db : DB) : WlResp × DB × List String :=
  match authenticateToken secret now authHeader with
  | .error e => (wlAuthFail e, db, [])
  | .ok c => listCore db c.userId

/-- `POST /api/watchlist/add` with the middleware. -/
def handleAdd (secret : String) (now : Nat) (authHeader : Option String)
    (db : DB) (symbol name : Option String) : WlResp × DB × List String :=
  match authenticateToken secret now authHeader with
  | .error e => (wlAuthFail e, db, [])
  | .ok c => addCore db now c.userId symbol name

/-- `PUT /api/watchlist/favorite/:symbol` with the middleware. -/
def handleToggle (secret : String) (now : Nat) (authHeader : Option String)
    (db : DB) (symbol : String) (isFavorite : BodyVal) :
    WlResp × DB × List String :=
  match authenticateToken secret now authHeader with
  | .error e => (wlAuthFail e, db, [])
  | .ok c => toggleCore db c.userId symbol isFavorite

/-- `DELETE /api/watchlist/remove/:symbol` with the middleware. -/
def handleRemove (secret : String) (now : Nat) (authHeader : Option String)
    (db : DB) (symbol : String) : WlResp × DB × List String :=
  match authenticateToken secret now authHeader with
  | .error e => (wlAuthFail e, db, [])
  | .ok c => removeCore db c.userId symbol

/-- The watchlist rows that belong to users other than `uid`. -/
def othersRows (db : DB) (uid : Nat) : List WatchlistRow :=
  db.watchlist.filter (fun r => ! (r.user_id == uid))

/-! ### Helper lemmas -/

theorem listCore_mem_scoped {db : DB} {uid : Nat} {it : ListItem}
    (h : it ∈ ((listCore db uid).1.watchlist.getD [])) :
    ∃ r ∈ db.watchlist, r.user_id = uid ∧ it = wlProj r := by
  simp only [listCore, Option.getD_some] at h
  rcases List.mem_map.mp h with ⟨r, hr, hproj⟩
  have hr2 : r ∈ db.watchlist.filter (fun r => r.user_id == uid) :=
    (List.perm_insertionSort wlR _).mem_iff.mp (by simpa [listQuery] using hr)
  rcases List.mem_filter.mp hr2 with ⟨hmem, huid⟩
  exact ⟨r, hmem, by simpa using huid, hproj.symm⟩

theorem filter_map_eq {α : Type} (p : α → Bool) (f : α → α)
    (h1 : ∀ a, p (f a) = p a) (h2 : ∀ a, p a = true → f a = a) :
    ∀ l : List α, (l.map f).filter p = l.filter p := by
  intro l
  induction l with
  | nil => rfl
  | cons a t ih =>
    simp only [List.map_cons, List.filter_cons]
    cases hpa : p a with
    | true => rw [h1 a, hpa, h2 a hpa, ih]
    | false =>
      rw [h1 a, hpa, ih]
      simp

theorem filter_filter_imp {α : Type} (p q : α → Bool)
    (h : ∀ a, p a = true → q a = true) :
    ∀ l : List α, (l.filter q).filter p = l.filter p := by
  intro l
  induction l with
  | nil => rfl
  | cons a t ih =>
    simp only [List.filter_cons]
    cases hqa : q a with
    | true =>
      simp only [List.filter_cons]
      cases hpa : p a <;> simp [hpa, ih]
    | false =>
      have hpa : p a = false := by
        cases hpa : p a
        · rfl
        · exact absurd (h a hpa) (by simp [hqa])
      simp [hpa, ih]

theorem addCore_others {db : DB} {now uid : Nat} {s n : Option String} :
    othersRows (addCore db now uid s n).2.1 uid = othersRows db uid := by
  simp only [addCore]
  split
  · rfl
  · split
    · rfl
    · simp [othersRows, List.filter_append]

theorem toggle_map_others {l : List WatchlistRow} {uid : Nat} {sym : String}
    {b : Bool} :
    (l.map (fun r => if r.user_id == uid && r.symbol == sym then
        { r with is_favorite := b } else r)).filter
      (fun r => ! (r.user_id == uid)) =
    l.filter (fun r => ! (r.user_id == uid)) := by
  apply filter_map_eq
  · intro a
    by_cases h : (a.user_id == uid && a.symbol == sym) = true
    · rw [if_pos h]
    · rw [if_neg h]
  · intro a hpa
    have h0 : (a.user_id == uid) = false := by
      cases hh : (a.user_id == uid)
      · rfl
      · rw [hh] at hpa
        simp at hpa
    rw [if_neg (by simp [h0])]

theorem toggleCore_others {db : DB} {uid : Nat} {sym : String} {v : BodyVal} :
    othersRows (toggleCore db uid sym v).2.1 uid = othersRows db uid := by
  cases v with
  | vBool b =>
    simp only [toggleCore]
    split
    · simpa [othersRows] using toggle_map_others
    · simpa [othersRows] using toggle_map_others
  | vStr s => rfl
  | vNum n => rfl
  | vNull => rfl
  | vUndefined => rfl

theorem removeCore_others {db : DB} {uid : Nat} {sym : String} :
    othersRows (removeCore db uid sym).2.1 uid = othersRows db uid := by
  simp only [removeCore, othersRows]
  apply filter_filter_imp
  intro a hpa
  have h0 : (a.user_id == uid) = false := by
    cases hh : (a.user_id == uid)
    · rfl
    · rw [hh] at hpa
      simp at hpa
  simp [h0]

theorem filter_id_eq_nil {us : List UserRow} {n : Nat}
    (h : ∀ u ∈ us, u.id < n) : us.filter (fun u => u.id == n) = [] := by
  rw [List.filter_eq_nil_iff]
  intro u hu
  have h2 := h u hu
  simp only [beq_iff_eq]
  omega

/-- In every branch of `register` that returns a token, the token is the
signature of the created user's id and email (and nothing else), and the
returned user view shows the same id and email. -/
theorem register_token_shape {isEmail : String → Bool} {secret : String}
    {db : DB} {now salt : Nat} {email password : String}
    {name : Option String} {t : List Char} :
    (register isEmail secret db now salt email password name).1.token =
      some t →
    ∃ v, (register isEmail secret db now salt email password name).1.userView
        = some v ∧ t = jwtSign ⟨v.id, v.email, none⟩ secret now := by
  simp only [register]
  split
  · intro h
    simp at h
  · split
    · intro h
      simp at h
    · split
      · intro h
        simp at h
      · rename_i newUser heq
        intro h
        exact ⟨⟨newUser.id, newUser.email, newUser.name⟩, rfl,
          (Option.some.inj h).symm⟩

theorem login_token_shape {isEmail : String → Bool} {secret : String}
    {db : DB} {now : Nat} {email password : String} {t : List Char} :
    (login isEmail secret db now email password).token = some t →
    ∃ v, (login isEmail secret db now email password).userView = some v ∧
      t = jwtSign ⟨v.id, v.email, none⟩ secret now := by
  simp only [login]
  split
  · intro h
    simp at h
  · split
    · intro h
      simp at h
    · rename_i user heq
      split
      · intro h
        simp at h
      · split
        · intro h
          exact ⟨⟨user.id, user.email, user.name⟩, rfl,
            (Option.some.inj h).symm⟩
        · intro h
          simp at h

theorem googleLogin_token_shape
    {verifyG : String → Except Unit (Option GooglePayload)} {secret : String}
    {db : DB} {now : Nat} {cred : Option String} {t : List Char} :
    (googleLogin verifyG secret db now cred).1.token = some t →
    ∃ v g, (googleLogin verifyG secret db now cred).1.userView = some v ∧
      t = jwtSign ⟨v.id, v.email, some g⟩ secret now := by
  simp only [googleLogin]
  split
  · intro h
    simp at h
  · split
    · intro h
      simp at h
    · intro h
      simp at h
    · rename_i p hp
      split
      · intro h
        simp at h
      · split
        · split
          · intro h
            simp at h
          · rename_i user heq
            intro h
            exact ⟨⟨user.id, user.email, user.name, user.picture⟩,
              user.google_id, rfl, (Option.some.inj h).symm⟩
        · split
          · rename_i u0 heq hfalsy
            intro h
            exact ⟨⟨u0.id, u0.email, jsOrNull p.name, jsOrNull p.picture⟩,
              some p.sub, rfl, (Option.some.inj h).symm⟩
          · rename_i u0 heq hfalsy
            intro h
            exact ⟨⟨u0.id, u0.email, u0.name, u0.picture⟩, u0.google_id,
              rfl, (Option.some.inj h).symm⟩

/-! ### Claim theorems -/

/-- C1: for every watchlist operation (List, Add, ToggleFavorite, Remove)
invoked with a verified token for user `u`, the user id used to scope the
query is the one carried by the verified token (the handlers take no other
user id input), every row returned by List belongs to `u`, and rows
belonging to any other user are left unchanged by Add, ToggleFavorite and
Remove. -/
theorem watchlist_ops_scoped_by_token (secret : String) (now : Nat)
    (hdr : Option String) (db : DB) (c : Claims)
    (hauth : authenticateToken secret now hdr = .ok c) :
    (∀ it ∈ ((handleList secret now hdr db).1.watchlist.getD []),
        ∃ r ∈ db.watchlist, r.user_id = c.userId ∧ it = wlProj r)
    ∧ (∀ s n, othersRows (handleAdd secret now hdr db s n).2.1 c.userId =
        othersRows db c.userId)
    ∧ (∀ s v, othersRows (handleToggle secret now hdr db s v).2.1 c.userId =
        othersRows db c.userId)
    ∧ (∀ s, othersRows (handleRemove secret now hdr db s).2.1 c.userId =
        othersRows db c.userId) := by
  refine ⟨?_, ?_, ?_, ?_⟩
  · intro it hit
    rw [handleList, hauth] at hit
    exact listCore_mem_scoped hit
  · intro s n
    rw [handleAdd, hauth]
    exact addCore_others
  · intro s v
    rw [handleToggle, hauth]
    exact toggleCore_others
  · intro s
    rw [handleRemove, hauth]
    exact removeCore_others

theorem watchlist_ops_scoped_by_token_witness :
    authenticateToken "sec" 2000
      (some ("Bearer " ++ String.mk (jwtSign (Claims.mk 7 "e" none) "sec" 1000)))
      = .ok (Claims.mk 7 "e" none)
    ∧ othersRows (handleRemove "sec" 2000
        (some ("Bearer " ++ String.mk (jwtSign (Claims.mk 7 "e" none) "sec" 1000)))
        (DB.mk [] 1 [⟨1, 7, "AAPL", "Apple", false, 1⟩,
          ⟨2, 8, "MSFT", "Msft", true, 2⟩] 3) "AAPL").2.1
        (Claims.mk 7 "e" none).userId =
      othersRows (DB.mk [] 1 [⟨1, 7, "AAPL", "Apple", false, 1⟩,
          ⟨2, 8, "MSFT", "Msft", true, 2⟩] 3) (Claims.mk 7 "e" none).userId :=
  ⟨by decide, (watchlist_ops_scoped_by_token "sec" 2000 _ _ _ (by decide)).2.2.2
    "AAPL"⟩

/-- C4: List returns all of the user's entries, ordered favorites first
(descending on the favorite flag) and by added-at descending within each
group; the result is always a 200 with a (possibly empty) list; and on the
concrete pair A(favorite=false, added first), B(favorite=true, added
second) the order is [B, A]. -/
theorem list_ordering_spec (db : DB) (uid : Nat) :
    ((listCore db uid).1.status = 200 ∧
     ((listCore db uid).1.watchlist).isSome = true)
    ∧ List.Perm ((listCore db uid).1.watchlist.getD [])
        ((db.watchlist.filter (fun r => r.user_id == uid)).map wlProj)
    ∧ ((listCore db uid).1.watchlist.getD []).Pairwise
        (fun a b => favNat b.isFavorite < favNat a.isFavorite ∨
          (favNat a.isFavorite = favNat b.isFavorite ∧ b.addedAt ≤ a.addedAt))
    ∧ (listCore (DB.mk [] 1 [] 1) uid).1.watchlist = some []
    ∧ (listCore (DB.mk [] 1 [⟨1, 9, "A", "A co", false, 10⟩,
          ⟨2, 9, "B", "B co", true, 20⟩] 3) 9).1.watchlist =
        some [⟨"B", "B co", true, 20⟩, ⟨"A", "A co", false, 10⟩] := by
  refine ⟨⟨rfl, rfl⟩, ?_, ?_, rfl, by decide⟩
  · simp only [listCore, Option.getD_some]
    exact (List.perm_insertionSort wlR _).map wlProj
  · simp only [listCore, Option.getD_some]
    have hs : (listQuery db uid).Pairwise wlR :=
      List.sorted_insertionSort wlR _
    rw [List.pairwise_map]
    exact hs.imp (fun hab => hab)

/-- C8: Remove always succeeds with the fixed success message, removes
exactly the caller's matching rows, leaves the database completely
unchanged when no row matches, and is idempotent. -/
theorem remove_idempotent_spec (db : DB) (uid : Nat) (sym : String) :
    (removeCore db uid sym).1 =
      ⟨200, some "Stock removed from watchlist", none⟩
    ∧ (removeCore db uid sym).2.1.users = db.users
    ∧ (removeCore db uid sym).2.1.watchlist =
        db.watchlist.filter (fun r => ! (r.user_id == uid && r.symbol == sym))
    ∧ (db.watchlist.filter (fun r => r.user_id == uid && r.symbol == sym)
          = [] → (removeCore db uid sym).2.1 = db)
    ∧ removeCore (removeCore db uid sym).2.1 uid sym =
        removeCore db uid sym := by
  refine ⟨rfl, rfl, rfl, ?_, ?_⟩
  · intro h
    have hall : db.watchlist.filter
        (fun r => ! (r.user_id == uid && r.symbol == sym)) = db.watchlist := by
      rw [List.filter_eq_self]
      intro a ha
      have h2 := List.filter_eq_nil_iff.mp h a ha
      simp only [Bool.not_eq_true] at h2 ⊢
      simp at h2 ⊢
      tauto
    simp only [removeCore, hall]
  · simp only [removeCore]
    rw [filter_filter_imp _ _ (fun a ha => ha)]

theorem remove_idempotent_spec_witness :
    (DB.mk [] 1 [⟨1, 7, "AAPL", "Apple", false, 1⟩] 2).watchlist.filter
      (fun r => r.user_id == 7 && r.symbol == "NOPE") = []
    ∧ (removeCore (DB.mk [] 1 [⟨1, 7, "AAPL", "Apple", false, 1⟩] 2) 7
        "NOPE").2.1 = DB.mk [] 1 [⟨1, 7, "AAPL", "Apple", false, 1⟩] 2 :=
  ⟨by decide, (remove_idempotent_spec
    (DB.mk [] 1 [⟨1, 7, "AAPL", "Apple", false, 1⟩] 2) 7 "NOPE").2.2.2.1
    (by decide)⟩

/-- C10: the middleware takes the substring after the first space of the
`Authorization` header without checking the scheme word (any scheme behaves
exactly like `Bearer`); a header with no second space-separated word or an
absent header yields 401 "Access token required" before any verification; a
present but invalid or expired token yields 403; and in every failure case
the request executes no database query and leaves the database unchanged. -/
theorem middleware_extraction_spec (secret : String) (now : Nat) :
    (∀ (scheme : String) (tok : List Char), ' ' ∉ scheme.data → ' ' ∉ tok →
        tok ≠ [] →
        authenticateToken secret now (some (scheme ++ " " ++ String.mk tok)) =
          authenticateToken secret now (some ("Bearer " ++ String.mk tok)))
    ∧ authenticateToken secret now none =
        .error ⟨401, "Access token required"⟩
    ∧ authenticateToken secret now (some "Bearer") =
        .error ⟨401, "Access token required"⟩
    ∧ (∀ hdr tok, extractToken hdr = some tok →
        jwtVerifyTok secret now tok = none →
        authenticateToken secret now hdr =
          .error ⟨403, "Invalid or expired token"⟩)
    ∧ (∀ (c : Claims) (iat : Nat), iat + sevenDays ≤ now →
        jwtVerifyTok secret now (jwtSign c secret iat) = none)
    ∧ (∀ hdr db e, authenticateToken secret now hdr = .error e →
        ((handleList secret now hdr db).2.1 = db ∧
         (handleList secret now hdr db).2.2 = []) ∧
        (∀ s n, (handleAdd secret now hdr db s n).2.1 = db ∧
            (handleAdd secret now hdr db s n).2.2 = []) ∧
        (∀ s v, (handleToggle secret now hdr db s v).2.1 = db ∧
            (handleToggle secret now hdr db s v).2.2 = []) ∧
        (∀ s, (handleRemove secret now hdr db s).2.1 = db ∧
            (handleRemove secret now hdr db s).2.2 = [])) := by
  refine ⟨?_, rfl, ?_, ?_, ?_, ?_⟩
  · intro scheme tok hs ht hne
    have hb : ("Bearer " ++ String.mk tok) = ("Bearer" ++ " " ++ String.mk tok) := by
      have h1 : ("Bearer" ++ " " : String) = "Bearer " := by decide
      rw [h1]
    rw [authenticateToken, extractToken_scheme scheme tok hs ht hne,
        authenticateToken, hb, extractToken_scheme "Bearer" tok (by decide) ht hne]
  · have hx : extractToken (some "Bearer") = none := by decide
    simp only [authenticateToken, hx]
  · intro hdr tok h1 h2
    simp only [authenticateToken, h1, h2]
  · intro c iat hle
    simp only [jwtVerifyTok, jwtSign, decTok_encTok]
    have : ¬ (now < iat + sevenDays) := by omega
    simp [this]
  · intro hdr db e hauth
    refine ⟨?_, ?_, ?_, ?_⟩
    · rw [handleList, hauth]
      exact ⟨rfl, rfl⟩
    · intro s n
      rw [handleAdd, hauth]
      exact ⟨rfl, rfl⟩
    · intro s v
      rw [handleToggle, hauth]
      exact ⟨rfl, rfl⟩
    · intro s
      rw [handleRemove, hauth]
      exact ⟨rfl, rfl⟩

theorem middleware_extraction_spec_witness :
    (' ' ∉ ("Token" : String).data
     ∧ ' ' ∉ jwtSign (Claims.mk 1 "e" none) "sec" 1000
     ∧ jwtSign (Claims.mk 1 "e" none) "sec" 1000 ≠ [])
    ∧ authenticateToken "sec" 2000
        (some ("Token" ++ " " ++
          String.mk (jwtSign (Claims.mk 1 "e" none) "sec" 1000))) =
      authenticateToken "sec" 2000
        (some ("Bearer " ++
          String.mk (jwtSign (Claims.mk 1 "e" none) "sec" 1000))) :=
  ⟨⟨by decide, by decide, by decide⟩,
   (middleware_extraction_spec "sec" 2000).1 "Token"
     (jwtSign (Claims.mk 1 "e" none) "sec" 1000)
     (by decide) (by decide) (by decide)⟩

/-- C5: ToggleFavorite answers 400 when `isFavorite` is not a boolean, 404
exactly when no row matches (user, symbol) (leaving the table unchanged),
otherwise 200 with a message reflecting the new state and the flag set on
the matching rows; on an existing entry a second call with the same boolean
succeeds identically and leaves the same state (idempotence). -/
theorem toggle_favorite_spec (db : DB) (uid : Nat) (sym : String) (b : Bool) :
    (∀ v : BodyVal, (∀ bb : Bool, v ≠ .vBool bb) →
        toggleCore db uid sym v =
          (⟨400, some "isFavorite must be a boolean", none⟩, db, []))
    ∧ (db.watchlist.filter (fun r => r.user_id == uid && r.symbol == sym)
          = [] →
        toggleCore db uid sym (.vBool b) =
          (⟨404, some "Stock not found in watchlist", none⟩, db,
            [sqlUpdateFavorite]))
    ∧ (db.watchlist.filter (fun r => r.user_id == uid && r.symbol == sym)
          ≠ [] →
        (toggleCore db uid sym (.vBool b)).1.status = 200 ∧
        (toggleCore db uid sym (.vBool b)).1.message =
          some (if b then "Stock favorited successfully"
                else "Stock unfavorited successfully") ∧
        (∀ r ∈ (toggleCore db uid sym (.vBool b)).2.1.watchlist,
            r.user_id = uid → r.symbol = sym → r.is_favorite = b))
    ∧ (db.watchlist.filter (fun r => r.user_id == uid && r.symbol == sym)
          ≠ [] →
        toggleCore (toggleCore db uid sym (.vBool b)).2.1 uid sym (.vBool b) =
          ((toggleCore db uid sym (.vBool b)).1,
           (toggleCore db uid sym (.vBool b)).2.1, [sqlUpdateFavorite])) := by
  have hcondmap : ∀ r : WatchlistRow,
      ((if r.user_id == uid && r.symbol == sym then
          { r with is_favorite := b } else r).user_id == uid &&
       (if r.user_id == uid && r.symbol == sym then
          { r with is_favorite := b } else r).symbol == sym) =
      (r.user_id == uid && r.symbol == sym) := by
    intro r
    by_cases h : (r.user_id == uid && r.symbol == sym) = true
    · rw [if_pos h]
    · rw [if_neg h]
  refine ⟨?_, ?_, ?_, ?_⟩
  · intro v hv
    cases v with
    | vBool bb => exact absurd rfl (hv bb)
    | vStr s => rfl
    | vNum n => rfl
    | vNull => rfl
    | vUndefined => rfl
  · intro h
    have hmap : db.watchlist.map (fun r =>
        if r.user_id == uid && r.symbol == sym then
          { r with is_favorite := b } else r) = db.watchlist := by
      have hnil := List.filter_eq_nil_iff.mp h
      calc db.watchlist.map (fun r =>
              if r.user_id == uid && r.symbol == sym then
                { r with is_favorite := b } else r)
          = db.watchlist.map id := by
            apply List.map_congr_left
            intro a ha
            have h2 := hnil a ha
            simp only [id]
            rw [if_neg (by simpa using h2)]
        _ = db.watchlist := List.map_id db.watchlist
    have haff : (db.watchlist.filter
        (fun r => r.user_id == uid && r.symbol == sym)).length = 0 := by
      rw [h]
      rfl
    simp only [toggleCore, hmap, haff, if_pos]
  · intro h
    have hlen : ¬ ((db.watchlist.filter
        (fun r => r.user_id == uid && r.symbol == sym)).length = 0) := by
      simpa [List.length_eq_zero] using h
    have hres : toggleCore db uid sym (.vBool b) =
        (⟨200, some (if b then "Stock favorited successfully"
            else "Stock unfavorited successfully"), none⟩,
         { db with watchlist := db.watchlist.map (fun r =>
            if r.user_id == uid && r.symbol == sym then
              { r with is_favorite := b } else r) },
         [sqlUpdateFavorite]) := by
      simp only [toggleCore, if_neg hlen]
    rw [hres]
    refine ⟨rfl, rfl, ?_⟩
    intro r hr hu hsy
    rcases List.mem_map.mp hr with ⟨r0, hr0, heq⟩
    by_cases h0 : (r0.user_id == uid && r0.symbol == sym) = true
    · rw [if_pos h0] at heq
      rw [← heq]
    · rw [if_neg h0] at heq
      subst heq
      exact absurd (by simp [hu, hsy]) h0
  · intro h
    have hlen : ¬ ((db.watchlist.filter
        (fun r => r.user_id == uid && r.symbol == sym)).length = 0) := by
      simpa [List.length_eq_zero] using h
    have hres : toggleCore db uid sym (.vBool b) =
        (⟨200, some (if b then "Stock favorited successfully"
            else "Stock unfavorited successfully"), none⟩,
         { db with watchlist := db.watchlist.map (fun r =>
            if r.user_id == uid && r.symbol == sym then
              { r with is_favorite := b } else r) },
         [sqlUpdateFavorite]) := by
      simp only [toggleCore, if_neg hlen]
    have hfil2 : (db.watchlist.map (fun r =>
        if r.user_id == uid && r.symbol == sym then
          { r with is_favorite := b } else r)).filter
          (fun r => r.user_id == uid && r.symbol == sym) =
        (db.watchlist.filter
          (fun r => r.user_id == uid && r.symbol == sym)).map
          (fun r => if r.user_id == uid && r.symbol == sym then
            { r with is_favorite := b } else r) := by
      rw [List.filter_map]
      congr 1
      apply List.filter_congr
      intro a ha
      exact hcondmap a
    have hlen2 : ¬ (((db.watchlist.map (fun r =>
        if r.user_id == uid && r.symbol == sym then
          { r with is_favorite := b } else r)).filter
          (fun r => r.user_id == uid && r.symbol == sym)).length = 0) := by
      rw [hfil2, List.length_map]
      exact hlen
    have hmm : (db.watchlist.map (fun r =>
        if r.user_id == uid && r.symbol == sym then
          { r with is_favorite := b } else r)).map (fun r =>
        if r.user_id == uid && r.symbol == sym then
          { r with is_favorite := b } else r) =
        db.watchlist.map (fun r =>
          if r.user_id == uid && r.symbol == sym then
            { r with is_favorite := b } else r) := by
      rw [List.map_map]
      apply List.map_congr_left
      intro a ha
      simp only [Function.comp]
      by_cases h0 : (a.user_id == uid && a.symbol == sym) = true <;>
        simp [h0]
    have hres2 : toggleCore (toggleCore db uid sym (.vBool b)).2.1 uid sym
        (.vBool b) =
        (⟨200, some (if b then "Stock favorited successfully"
            else "Stock unfavorited successfully"), none⟩,
         { db with watchlist := db.watchlist.map (fun r =>
            if r.user_id == uid && r.symbol == sym then
              { r with is_favorite := b } else r) },
         [sqlUpdateFavorite]) := by
      rw [hres]
      simp only [toggleCore, if_neg hlen2]
      rw [hmm]
    rw [hres2, hres]

/-- C2: with the validators passed, login answers 401 in exactly three
cases — no user matches the email, the matched user has a falsy (absent)
password hash, or the hash comparison fails — the unknown-email and
wrong-password cases share the same status and the same generic message
"Invalid credentials", and the OAuth-only case uses the distinct message
"Please sign in with Google". -/
theorem login_unauthorized_trichotomy (isEmail : String → Bool)
    (secret : String) (db : DB) (now : Nat) (email password : String)
    (hval : isEmail email = true) :
    ((login isEmail secret db now email password).status = 401 ↔
      ((db.users.filter (fun u => u.email == email)).head? = none ∨
       (∃ u, (db.users.filter (fun u => u.email == email)).head? = some u ∧
          jsFalsyStr u.password = true) ∨
       (∃ u, (db.users.filter (fun u => u.email == email)).head? = some u ∧
          jsFalsyStr u.password = false ∧
          bcryptCompare password (u.password.getD "") = false)))
    ∧ ((db.users.filter (fun u => u.email == email)).head? = none →
        (login isEmail secret db now email password).message =
          "Invalid credentials")
    ∧ (∀ u, (db.users.filter (fun u => u.email == email)).head? = some u →
        jsFalsyStr u.password = false →
        bcryptCompare password (u.password.getD "") = false →
        (login isEmail secret db now email password).message =
          "Invalid credentials")
    ∧ (∀ u, (db.users.filter (fun u => u.email == email)).head? = some u →
        jsFalsyStr u.password = true →
        (login isEmail secret db now email password).message =
          "Please sign in with Google")
    ∧ ("Please sign in with Google" ≠ ("Invalid credentials" : String)) := by
  cases hh : (db.users.filter (fun u => u.email == email)).head? with
  | none =>
    have hlogin : login isEmail secret db now email password =
        ⟨401, "Invalid credentials", none, none⟩ := by
      simp only [login, hval, hh]
      simp
    rw [hlogin]
    exact ⟨Iff.intro (fun _ => Or.inl rfl) (fun _ => rfl),
      fun _ => rfl,
      fun _ _ _ _ => rfl,
      fun w hw _ => absurd hw (by simp),
      by decide⟩
  | some u =>
    cases hfp : jsFalsyStr u.password with
    | true =>
      have hlogin : login isEmail secret db now email password =
          ⟨401, "Please sign in with Google", none, none⟩ := by
        simp only [login, hval, hh, hfp]
        simp
      rw [hlogin]
      refine ⟨Iff.intro (fun _ => Or.inr (Or.inl ⟨u, rfl, hfp⟩))
          (fun _ => rfl),
        fun hnone => absurd hnone (by simp),
        fun w hw hfw _ => ?_,
        fun _ _ _ => rfl,
        by decide⟩
      have he : u = w := Option.some.inj hw
      rw [← he, hfp] at hfw
      exact Bool.noConfusion hfw
    | false =>
      cases hcmp : bcryptCompare password (u.password.getD "") with
      | true =>
        have hlogin : login isEmail secret db now email password =
            ⟨200, "Login successful",
              some (jwtSign ⟨u.id, u.email, none⟩ secret now),
              some ⟨u.id, u.email, u.name⟩⟩ := by
          simp only [login, hval, hh, hfp, hcmp]
          simp
        rw [hlogin]
        refine ⟨Iff.intro (fun h2 => absurd h2 (by simp)) (fun hrhs => ?_),
          fun hnone => absurd hnone (by simp),
          fun w hw hfw hcw => ?_,
          fun w hw hfw => ?_,
          by decide⟩
        · rcases hrhs with hn | ⟨w, hw, hfw⟩ | ⟨w, hw, hfw2, hcw⟩
          · exact absurd hn (by simp)
          · have he : u = w := Option.some.inj hw
            rw [← he, hfp] at hfw
            exact Bool.noConfusion hfw
          · have he : u = w := Option.some.inj hw
            rw [← he, hcmp] at hcw
            exact Bool.noConfusion hcw
        · have he : u = w := Option.some.inj hw
          rw [← he, hcmp] at hcw
          exact Bool.noConfusion hcw
        · have he : u = w := Option.some.inj hw
          rw [← he, hfp] at hfw
          exact Bool.noConfusion hfw
      | false =>
        have hlogin : login isEmail secret db now email password =
            ⟨401, "Invalid credentials", none, none⟩ := by
          simp only [login, hval, hh, hfp, hcmp]
          simp
        rw [hlogin]
        refine ⟨Iff.intro (fun _ => Or.inr (Or.inr ⟨u, rfl, hfp, hcmp⟩))
            (fun _ => rfl),
          fun _ => rfl,
          fun _ _ _ _ => rfl,
          fun w hw hfw => ?_,
          by decide⟩
        have he : u = w := Option.some.inj hw
        rw [← he, hfp] at hfw
        exact Bool.noConfusion hfw


theorem jsFalsyStr_bcryptHash (salt : Nat) (p : String) :
    jsFalsyStr (some (bcryptHash salt p)) = false := by
  simp only [jsFalsyStr, bcryptHash]
  rw [beq_eq_false_iff_ne]
  intro hx
  have hd := congrArg String.data hx
  simp at hd

/-- C3: for every validated email and password of at least 6 characters,
Register on a store not containing that email succeeds with status 201 and
the fresh user id, and a subsequent Login with the same credentials
succeeds and returns a token whose claims decode to that same user id. -/
theorem register_login_roundtrip (isEmail : String → Bool) (secret : String)
    (db : DB) (now salt now2 : Nat) (email password : String)
    (name : Option String)
    (hval : isEmail email = true) (hlen : 6 ≤ password.length)
    (hnew : db.users.filter (fun u => u.email == email) = [])
    (hfresh : ∀ u ∈ db.users, u.id < db.nextUserId) :
    (register isEmail secret db now salt email password name).1.status = 201
    ∧ (register isEmail secret db now salt email password name).1.userView =
        some ⟨db.nextUserId, email, jsOrNull name⟩
    ∧ (login isEmail secret
        (register isEmail secret db now salt email password name).2 now2
        email password).status = 200
    ∧ ∃ t p, (login isEmail secret
          (register isEmail secret db now salt email password name).2 now2
          email password).token = some t
        ∧ decTok t = some p ∧ p.claims.userId = db.nextUserId := by
  have hvb : (isEmail email && decide (6 ≤ password.length)) = true := by
    rw [hval]
    simp [hlen]
  have hrow : (db.users ++
      [UserRow.mk db.nextUserId email (some (bcryptHash salt password)) none
        (jsOrNull name) none now]).filter (fun u => u.id == db.nextUserId) =
      [UserRow.mk db.nextUserId email (some (bcryptHash salt password)) none
        (jsOrNull name) none now] := by
    rw [List.filter_append, filter_id_eq_nil hfresh]
    simp
  have hreg : register isEmail secret db now salt email password name =
      (AuthResp.mk 201 "User created successfully"
        (some (jwtSign (Claims.mk db.nextUserId email none) secret now))
        (some (UserView.mk db.nextUserId email (jsOrNull name))),
       DB.mk (db.users ++
          [UserRow.mk db.nextUserId email (some (bcryptHash salt password))
            none (jsOrNull name) none now])
         (db.nextUserId + 1) db.watchlist db.nextWatchlistId) := by
    simp only [register, hvb, hnew, hrow]
    simp
  have hfind : ((db.users ++
      [UserRow.mk db.nextUserId email (some (bcryptHash salt password)) none
        (jsOrNull name) none now]).filter (fun u => u.email == email)).head? =
      some (UserRow.mk db.nextUserId email (some (bcryptHash salt password))
        none (jsOrNull name) none now) := by
    rw [List.filter_append, hnew]
    simp
  have hlogin : login isEmail secret
      (register isEmail secret db now salt email password name).2 now2
      email password =
      AuthResp.mk 200 "Login successful"
        (some (jwtSign (Claims.mk db.nextUserId email none) secret now2))
        (some (UserView.mk db.nextUserId email (jsOrNull name))) := by
    rw [hreg]
    simp only [login, hval, hfind, jsFalsyStr_bcryptHash]
    simp only [Option.getD_some, bcryptCompare_hash]
    simp
  refine ⟨by rw [hreg], by rw [hreg], by rw [hlogin], ?_⟩
  refine ⟨jwtSign (Claims.mk db.nextUserId email none) secret now2,
    TokenPayload.mk (Claims.mk db.nextUserId email none) (now2 + sevenDays)
      secret,
    by rw [hlogin], ?_, rfl⟩
  exact decTok_encTok _

theorem register_login_roundtrip_witness :
    ((fun _ : String => true) "a@b.c" = true)
    ∧ 6 ≤ ("secret1" : String).length
    ∧ (DB.mk [] 1 [] 1).users.filter (fun u => u.email == "a@b.c") = []
    ∧ (login (fun _ => true) "sec"
        (register (fun _ => true) "sec" (DB.mk [] 1 [] 1) 1000 5 "a@b.c"
          "secret1" none).2 2000 "a@b.c" "secret1").status = 200 :=
  ⟨rfl, by decide, rfl,
   (register_login_roundtrip (fun _ => true) "sec" (DB.mk [] 1 [] 1) 1000 5
     2000 "a@b.c" "secret1" none rfl (by decide) rfl
     (by intro u hu; cases hu)).2.2.1⟩

theorem login_unauthorized_trichotomy_witness :
    ((fun _ : String => true) "a@b.c" = true)
    ∧ (login (fun _ => true) "sec" (DB.mk [] 1 [] 1) 5 "a@b.c" "pw").message =
        "Invalid credentials" :=
  ⟨rfl, (login_unauthorized_trichotomy (fun _ => true) "sec"
    (DB.mk [] 1 [] 1) 5 "a@b.c" "pw" rfl).2.1 (by decide)⟩

theorem head?_mem {α : Type} {l : List α} {a : α} (h : l.head? = some a) :
    a ∈ l := by
  cases l with
  | nil => cases h
  | cons x t =>
    have hx : x = a := Option.some.inj h
    rw [← hx]
    exact List.mem_cons_self x t

/-- C7: when a Google login matches an existing user without an external
identity id, it attaches the external id, name and avatar to that user and
leaves the user's password hash, email, id and creation time unchanged
(other users' rows are untouched); moreover no auth transition removes a
credential: register only appends rows, login returns no database at all
(it is read-only by construction), and Google login never clears a stored
password or a non-falsy external id. -/
theorem google_linking_preserves_credentials
    (verifyG : String → Except Unit (Option GooglePayload))
    (isEmail : String → Bool) (secret : String) (db : DB)
    (now salt : Nat) (email password : String) (name cred : Option String)
    (p : GooglePayload) (u : UserRow)
    (hids : (db.users.map (fun w => w.id)).Nodup)
    (hcred : jsFalsyStr cred = false)
    (hver : verifyG (cred.getD "") = .ok (some p))
    (hemail : jsFalsyStr p.email = false)
    (hfound : (db.users.filter (fun w =>
        w.google_id == some p.sub || w.email == p.email.getD "")).head? =
      some u)
    (hnog : u.google_id = none) :
    (googleLogin verifyG secret db now cred).2.users =
      db.users.map (fun w => if w.id == u.id then
        { w with google_id := some p.sub, name := p.name,
                 picture := p.picture } else w)
    ∧ (∀ w ∈ db.users, ∃ w' ∈ (googleLogin verifyG secret db now cred).2.users,
        w'.id = w.id ∧ w'.email = w.email ∧ w'.password = w.password ∧
        w'.created_at = w.created_at ∧
        (w.id ≠ u.id → w' = w) ∧
        (w.id = u.id → w'.google_id = some p.sub ∧ w'.name = p.name ∧
          w'.picture = p.picture))
    ∧ (∀ w ∈ db.users,
        w ∈ (register isEmail secret db now salt email password name).2.users)
    ∧ (∀ cred2, ∀ w ∈ db.users,
        ∃ w' ∈ (googleLogin verifyG secret db now cred2).2.users,
          w'.id = w.id ∧ w'.password = w.password ∧
          (jsFalsyStr w.google_id = false → w'.google_id = w.google_id)) := by
  have hfalsy : jsFalsyStr u.google_id = true := by
    rw [hnog]
    rfl
  have husers : (googleLogin verifyG secret db now cred).2.users =
      db.users.map (fun w => if w.id == u.id then
        { w with google_id := some p.sub, name := p.name,
                 picture := p.picture } else w) := by
    simp only [googleLogin, hcred, hver, hemail, hfound, hfalsy]
    simp
  refine ⟨husers, ?_, ?_, ?_⟩
  · intro w hw
    refine ⟨if w.id == u.id then
        { w with google_id := some p.sub, name := p.name,
                 picture := p.picture } else w, ?_, ?_⟩
    · rw [husers]
      exact List.mem_map_of_mem _ hw
    · by_cases hc : (w.id == u.id) = true
      · rw [if_pos hc]
        exact ⟨rfl, rfl, rfl, rfl,
          fun hne => absurd (by simpa using hc) hne,
          fun _ => ⟨rfl, rfl, rfl⟩⟩
      · rw [if_neg hc]
        exact ⟨rfl, rfl, rfl, rfl, fun _ => rfl,
          fun heq => absurd (by simpa using heq) (by simpa using hc)⟩
  · intro w hw
    simp only [register]
    split
    · exact hw
    · split
      · exact hw
      · split
        · exact List.mem_append_left _ hw
        · exact List.mem_append_left _ hw
  · intro cred2 w hw
    simp only [googleLogin]
    split
    · exact ⟨w, hw, rfl, rfl, fun _ => rfl⟩
    · split
      · exact ⟨w, hw, rfl, rfl, fun _ => rfl⟩
      · exact ⟨w, hw, rfl, rfl, fun _ => rfl⟩
      · rename_i p2 hp2
        split
        · exact ⟨w, hw, rfl, rfl, fun _ => rfl⟩
        · split
          · split
            · exact ⟨w, List.mem_append_left _ hw, rfl, rfl, fun _ => rfl⟩
            · exact ⟨w, List.mem_append_left _ hw, rfl, rfl, fun _ => rfl⟩
          · split
            · rename_i u0 heq0 hfalsy0
              refine ⟨if w.id == u0.id then
                  { w with google_id := some p2.sub, name := p2.name,
                           picture := p2.picture } else w,
                List.mem_map_of_mem _ hw, ?_⟩
              by_cases hc : (w.id == u0.id) = true
              · rw [if_pos hc]
                refine ⟨rfl, rfl, ?_⟩
                intro hwg
                have hu0 : u0 ∈ db.users :=
                  List.mem_of_mem_filter (head?_mem heq0)
                have hwu : w = u0 :=
                  List.inj_on_of_nodup_map hids hw hu0 (by simpa using hc)
                rw [hwu] at hwg
                rw [hfalsy0] at hwg
                cases hwg
              · rw [if_neg hc]
                exact ⟨rfl, rfl, fun _ => rfl⟩
            · exact ⟨w, hw, rfl, rfl, fun _ => rfl⟩

theorem google_linking_preserves_credentials_witness :
    ([UserRow.mk 1 "a@b.c" (some "hashX") none none none 50].map
      (fun w => w.id)).Nodup
    ∧ (googleLogin (fun _ => .ok (some (GooglePayload.mk "g1" (some "a@b.c")
        (some "Nam") none))) "sec"
        (DB.mk [UserRow.mk 1 "a@b.c" (some "hashX") none none none 50] 2 [] 1)
        3000 (some "cred")).2.users =
      [UserRow.mk 1 "a@b.c" (some "hashX") none none none 50].map
        (fun w => if w.id == 1 then
          { w with google_id := some "g1", name := some "Nam",
                   picture := (none : Option String) } else w) :=
  ⟨by decide,
   (google_linking_preserves_credentials
     (fun _ => .ok (some (GooglePayload.mk "g1" (some "a@b.c") (some "Nam")
       none)))
     (fun _ => true) "sec"
     (DB.mk [UserRow.mk 1 "a@b.c" (some "hashX") none none none 50] 2 [] 1)
     3000 5 "x" "y" none (some "cred")
     (GooglePayload.mk "g1" (some "a@b.c") (some "Nam") none)
     (UserRow.mk 1 "a@b.c" (some "hashX") none none none 50)
     (by decide) (by decide) rfl (by decide) (by decide) rfl).1⟩

/-- C6 counterexample: the token issued by a successful Google login
carries a `googleId` claim besides {user id, email}, so its claim set is
not exactly {user id, email} as the claim states for all three issuing
paths. -/
theorem google_token_extra_claim_cex :
    ((googleLogin (fun _ => .ok (some (GooglePayload.mk "g1" (some "a@b.c")
        none none))) "sec" (DB.mk [] 1 [] 1) 3000 (some "cred")).1.status
      = 200)
    ∧ ((googleLogin (fun _ => .ok (some (GooglePayload.mk "g1" (some "a@b.c")
        none none))) "sec" (DB.mk [] 1 [] 1) 3000 (some "cred")).1.token.map
        (fun t => (decTok t).map (fun p => p.claims.googleId)))
      = some (some (some (some "g1"))) := by
  constructor
  · rfl
  · decide

/-- C6 (amended): every token issued by a successful Register or Login
carries exactly the claims {user id, email}, and every token issued by a
successful Google login carries exactly {user id, email, googleId}; in all
three paths the expiry is a fixed 7 days from issuance and the token is
signed with the server-held secret. -/
theorem token_claims_amended (isEmail : String → Bool)
    (verifyG : String → Except Unit (Option GooglePayload)) (secret : String)
    (db db2 db3 : DB) (now salt : Nat) (email password : String)
    (name cred : Option String) (t : List Char) :
    ((register isEmail secret db now salt email password name).1.token =
        some t →
      ∀ v, (register isEmail secret db now salt email password name).1.userView
          = some v →
        decTok t = some ⟨⟨v.id, v.email, none⟩, now + sevenDays, secret⟩)
    ∧ ((login isEmail secret db2 now email password).token = some t →
      ∀ v, (login isEmail secret db2 now email password).userView = some v →
        decTok t = some ⟨⟨v.id, v.email, none⟩, now + sevenDays, secret⟩)
    ∧ ((googleLogin verifyG secret db3 now cred).1.token = some t →
      ∀ v, (googleLogin verifyG secret db3 now cred).1.userView = some v →
      ∀ p, decTok t = some p →
        p.claims.userId = v.id ∧ p.claims.email = v.email ∧
        p.claims.googleId ≠ none ∧ p.exp = now + sevenDays ∧
        p.secret = secret) := by
  refine ⟨?_, ?_, ?_⟩
  · intro ht v hv
    rcases register_token_shape ht with ⟨v', hv', htok⟩
    cases Option.some.inj (hv'.symm.trans hv)
    rw [htok]
    exact decTok_encTok _
  · intro ht v hv
    rcases login_token_shape ht with ⟨v', hv', htok⟩
    cases Option.some.inj (hv'.symm.trans hv)
    rw [htok]
    exact decTok_encTok _
  · intro ht v hv p hp
    rcases googleLogin_token_shape ht with ⟨v', g, hv', htok⟩
    cases Option.some.inj (hv'.symm.trans hv)
    rw [htok] at hp
    cases Option.some.inj ((decTok_encTok _).symm.trans hp)
    exact ⟨rfl, rfl, by simp, rfl, rfl⟩

theorem token_claims_amended_witness :
    ((register (fun _ => true) "sec" (DB.mk [] 1 [] 1) 1000 5 "a@b.c"
        "secret1" none).1.token =
      some (jwtSign (Claims.mk 1 "a@b.c" none) "sec" 1000))
    ∧ ((register (fun _ => true) "sec" (DB.mk [] 1 [] 1) 1000 5 "a@b.c"
        "secret1" none).1.userView = some (UserView.mk 1 "a@b.c" none))
    ∧ decTok (jwtSign (Claims.mk 1 "a@b.c" none) "sec" 1000) =
        some ⟨⟨1, "a@b.c", none⟩, 1000 + sevenDays, "sec"⟩ :=
  ⟨by decide, by decide,
   (token_claims_amended (fun _ => true) (fun _ => .error ()) "sec"
     (DB.mk [] 1 [] 1) (DB.mk [] 1 [] 1) (DB.mk [] 1 [] 1) 1000 5 "a@b.c"
     "secret1" none none (jwtSign (Claims.mk 1 "a@b.c" none) "sec" 1000)).1
     (by decide) (UserView.mk 1 "a@b.c" none) (by decide)⟩

/-- C9: every token issued by a successful Register, Login, or Google login
is signed with the same secret the watchlist middleware verifies against
and stores the user id under the claim key the middleware reads, so within
its lifetime a freshly issued token sent as `Bearer <token>` is accepted by
`authenticateToken` and scopes the list operation to the issuing user's
id. -/
theorem sign_then_verify_roundtrip (isEmail : String → Bool)
    (verifyG : String → Except Unit (Option GooglePayload)) (secret : String)
    (db db2 db3 : DB) (now now2 salt : Nat) (email password : String)
    (name cred : Option String)
    (hexp : now2 < now + sevenDays) :
    (∀ t v, (register isEmail secret db now salt email password name).1.token
          = some t →
        (register isEmail secret db now salt email password name).1.userView
          = some v →
        authenticateToken secret now2 (some ("Bearer " ++ String.mk t)) =
          .ok ⟨v.id, v.email, none⟩
        ∧ ∀ dbw, ∀ it ∈ ((handleList secret now2
            (some ("Bearer " ++ String.mk t)) dbw).1.watchlist.getD []),
            ∃ r ∈ dbw.watchlist, r.user_id = v.id ∧ it = wlProj r)
    ∧ (∀ t v, (login isEmail secret db2 now email password).token = some t →
        (login isEmail secret db2 now email password).userView = some v →
        authenticateToken secret now2 (some ("Bearer " ++ String.mk t)) =
          .ok ⟨v.id, v.email, none⟩
        ∧ ∀ dbw, ∀ it ∈ ((handleList secret now2
            (some ("Bearer " ++ String.mk t)) dbw).1.watchlist.getD []),
            ∃ r ∈ dbw.watchlist, r.user_id = v.id ∧ it = wlProj r)
    ∧ (∀ t v, (googleLogin verifyG secret db3 now cred).1.token = some t →
        (googleLogin verifyG secret db3 now cred).1.userView = some v →
        ∃ g, authenticateToken secret now2
            (some ("Bearer " ++ String.mk t)) = .ok ⟨v.id, v.email, some g⟩
        ∧ ∀ dbw, ∀ it ∈ ((handleList secret now2
            (some ("Bearer " ++ String.mk t)) dbw).1.watchlist.getD []),
            ∃ r ∈ dbw.watchlist, r.user_id = v.id ∧ it = wlProj r) := by
  refine ⟨?_, ?_, ?_⟩
  · intro t v ht hv
    rcases register_token_shape ht with ⟨v', hv', htok⟩
    cases Option.some.inj (hv'.symm.trans hv)
    subst htok
    have hauth : authenticateToken secret now2 (some ("Bearer " ++
        String.mk (jwtSign (Claims.mk v.id v.email none) secret now))) =
        .ok (Claims.mk v.id v.email none) :=
      authenticateToken_bearer_sign _ hexp
    refine ⟨hauth, ?_⟩
    intro dbw it hit
    rw [handleList, hauth] at hit
    exact listCore_mem_scoped hit
  · intro t v ht hv
    rcases login_token_shape ht with ⟨v', hv', htok⟩
    cases Option.some.inj (hv'.symm.trans hv)
    subst htok
    have hauth : authenticateToken secret now2 (some ("Bearer " ++
        String.mk (jwtSign (Claims.mk v.id v.email none) secret now))) =
        .ok (Claims.mk v.id v.email none) :=
      authenticateToken_bearer_sign _ hexp
    refine ⟨hauth, ?_⟩
    intro dbw it hit
    rw [handleList, hauth] at hit
    exact listCore_mem_scoped hit
  · intro t v ht hv
    rcases googleLogin_token_shape ht with ⟨v', g, hv', htok⟩
    cases Option.some.inj (hv'.symm.trans hv)
    subst htok
    have hauth : authenticateToken secret now2 (some ("Bearer " ++
        String.mk (jwtSign (Claims.mk v.id v.email (some g)) secret now))) =
        .ok (Claims.mk v.id v.email (some g)) :=
      authenticateToken_bearer_sign _ hexp
    refine ⟨g, hauth, ?_⟩
    intro dbw it hit
    rw [handleList, hauth] at hit
    exact listCore_mem_scoped hit

theorem sign_then_verify_roundtrip_witness :
    (2000 < 1000 + sevenDays)
    ∧ ((register (fun _ => true) "sec" (DB.mk [] 1 [] 1) 1000 5 "a@b.c"
        "secret1" none).1.token =
      some (jwtSign (Claims.mk 1 "a@b.c" none) "sec" 1000))
    ∧ authenticateToken "sec" 2000
        (some ("Bearer " ++
          String.mk (jwtSign (Claims.mk 1 "a@b.c" none) "sec" 1000))) =
      .ok ⟨1, "a@b.c", none⟩ :=
  ⟨by decide, by decide,
   ((sign_then_verify_roundtrip (fun _ => true) (fun _ => .error ()) "sec"
      (DB.mk [] 1 [] 1) (DB.mk [] 1 [] 1) (DB.mk [] 1 [] 1) 1000 2000 5
      "a@b.c" "secret1" none none (by decide)).1
      (jwtSign (Claims.mk 1 "a@b.c" none) "sec" 1000)
      (UserView.mk 1 "a@b.c" none) (by decide) (by decide)).1⟩

theorem toggle_favorite_spec_witness :
    (DB.mk [] 1 [⟨1, 7, "AAPL", "Apple", false, 1⟩] 2).watchlist.filter
      (fun r => r.user_id == 7 && r.symbol == "AAPL") ≠ []
    ∧ toggleCore (toggleCore (DB.mk [] 1 [⟨1, 7, "AAPL", "Apple", false, 1⟩] 2)
          7 "AAPL" (.vBool true)).2.1 7 "AAPL" (.vBool true) =
        ((toggleCore (DB.mk [] 1 [⟨1, 7, "AAPL", "Apple", false, 1⟩] 2)
            7 "AAPL" (.vBool true)).1,
         (toggleCore (DB.mk [] 1 [⟨1, 7, "AAPL", "Apple", false, 1⟩] 2)
            7 "AAPL" (.vBool true)).2.1, [sqlUpdateFavorite]) :=
  ⟨by decide, (toggle_favorite_spec
      (DB.mk [] 1 [⟨1, 7, "AAPL", "Apple", false, 1⟩] 2) 7 "AAPL"
      true).2.2.2 (by decide)⟩

end Tinvest
